import Mathlib

/-!
Shallow embedding of the `poc-backend` company-discovery/scoring pipeline
(`scoring_service.py`, `crust_service.py`, `main.py`, `models.py`).

Python floats are modelled as exact rationals (`ℚ`); Python `round(x, 3)`
is modelled as rounding `x * 1000` to the nearest integer.  Raw company
records handled by the scoring functions are modelled as a typed record
(`Company`) whose optional fields reflect the `dict.get` / `isinstance`
defaulting in the source; the fully dynamic view needed to analyse
`_convert_to_result` on malformed data is modelled separately as `PyVal`.
-/

namespace CrustPoc

/-- Model `ICP` from `models.py`: all four numeric bounds are required
non-negative ints (`ge=0`), `industries` a list of strings. -/
structure ICP where
  industries : List String
  revenue_min : Nat
  revenue_max : Nat
  headcount_min : Nat
  headcount_max : Nat
deriving DecidableEq, Repr

/-- The `taxonomy` sub-dict of a raw company record, as read by
`scoring_service.py` (two list-valued keys, absent keys default to `[]`). -/
structure Taxonomy where
  linkedin_industries : List String
  crunchbase_categories : List String
deriving DecidableEq, Repr

/-- Typed view of a raw company record, holding exactly the fields
`scoring_service.py` reads.  `linkedin_headcount` collapses the
`headcount` sub-dict: the code extracts `headcount.linkedin_headcount`
with default `0` whenever `headcount` is absent, not a dict, or lacks the
key, so `0` stands for "no headcount data".  Likewise revenue `0` stands
for "no revenue data". -/
structure Company where
  company_name : Option String
  company_website_domain : Option String
  taxonomy : Option Taxonomy
  linkedin_headcount : Nat
  estimated_revenue_lower_bound_usd : Nat
  year_founded : Option String
  headquarters : Option String
  hq_street_address : Option String
  hq_country : Option String
deriving DecidableEq, Repr

/-- A raw record with every field absent. -/
def Company.empty : Company :=
  ⟨none, none, none, 0, 0, none, none, none, none⟩

/-- Python `min(a, b)` on rationals (kernel-reducible, unlike `Min.min`). -/
def pyMin (a b : ℚ) : ℚ := if a ≤ b then a else b

/-- Python `max(a, b)` on rationals. -/
def pyMax (a b : ℚ) : ℚ := if a ≤ b then b else a

/-- Python truthiness of an optional string: `None` and `""` are falsy. -/
def strTruthy : Option String → Bool
  | none => false
  | some s => s ≠ ""

/-- Python `a or b` restricted to optional strings (used for the
`headquarters or hq_street_address or hq_country` chain). -/
def pyOrStr (a b : Option String) : Option String :=
  if strTruthy a then a else b

/-- Python `needle in haystack` on strings (substring test). -/
def pyIn (needle haystack : String) : Bool :=
  decide (needle.toList <:+: haystack.toList)

/-- Extraction `company_industries = linkedin_industries + crunchbase_categories`
(empty when `taxonomy` is absent or not a dict). -/
def companyIndustries (c : Company) : List String :=
  match c.taxonomy with
  | some t => t.linkedin_industries ++ t.crunchbase_categories
  | none => []

/-- Inner loop of `_score_industry_match` for one target industry: scan the
company industries in order and `break` at the first hit — `some true` for
an exact (case-insensitive) match, `some false` for a partial (substring)
match, `none` when no company industry matches. -/
def matchTarget (target : String) : List String → Option Bool
  | [] => none
  | ci :: rest =>
    if target.toLower = ci.toLower then some true
    else if pyIn target.toLower ci.toLower || pyIn ci.toLower target.toLower then
      some false
    else matchTarget target rest

/-- The `(exact_matches, partial_matches)` counters of
`_score_industry_match` after the double loop. -/
def countMatches (targets : List String) (cs : List String) : Nat × Nat :=
  match targets with
  | [] => (0, 0)
  | t :: ts =>
    let ep := countMatches ts cs
    match matchTarget t cs with
    | some true => (ep.1 + 1, ep.2)
    | some false => (ep.1, ep.2 + 1)
    | none => ep

/-- Final score computation of `_score_industry_match` from the two match
counters and `total_targets = len(icp.industries)`. -/
def industryScoreFromCounts (e p T : Nat) : ℚ :=
  if 0 < e then pyMin 1 (0.8 + ((e : ℚ) / (T : ℚ)) * 0.2)
  else if 0 < p then pyMin 0.8 (0.4 + ((p : ℚ) / (T : ℚ)) * 0.4)
  else 0.2

/-- Function `_score_industry_match` from `scoring_service.py`. -/
def score_industry_match (c : Company) (icp : ICP) : ℚ :=
  let cs := companyIndustries c
  if cs = [] then 0.5
  else
    let ep := countMatches icp.industries cs
    industryScoreFromCounts ep.1 ep.2 icp.industries.length

/-- Function `_score_size_match` from `scoring_service.py`. -/
def score_size_match (c : Company) (icp : ICP) : ℚ :=
  let emp := c.linkedin_headcount
  if emp = 0 then 0.5
  else if icp.headcount_min ≤ emp ∧ emp ≤ icp.headcount_max then 1
  else
    let range_size : ℤ := (icp.headcount_max : ℤ) - (icp.headcount_min : ℤ)
    let tolerance : ℚ := (range_size : ℚ) * 0.5
    if emp < icp.headcount_min then
      let distance : ℚ := ((icp.headcount_min : ℤ) - (emp : ℤ) : ℤ)
      if distance ≤ tolerance then pyMax 0.3 (1 - distance / tolerance * 0.7)
      else 0.1
    else if icp.headcount_max < emp then
      let distance : ℚ := ((emp : ℤ) - (icp.headcount_max : ℤ) : ℤ)
      if distance ≤ tolerance then pyMax 0.3 (1 - distance / tolerance * 0.7)
      else 0.1
    else 0.1

/-- Function `_score_revenue_match` from `scoring_service.py`. -/
def score_revenue_match (c : Company) (icp : ICP) : ℚ :=
  let revenue := c.estimated_revenue_lower_bound_usd
  if revenue = 0 then 0.5
  else if icp.revenue_min ≤ revenue ∧ revenue ≤ icp.revenue_max then 1
  else
    let range_size : ℤ := (icp.revenue_max : ℤ) - (icp.revenue_min : ℤ)
    let tolerance : ℚ := (range_size : ℚ) * 0.5
    if revenue < icp.revenue_min then
      let distance : ℚ := ((icp.revenue_min : ℤ) - (revenue : ℤ) : ℤ)
      if distance ≤ tolerance then pyMax 0.3 (1 - distance / tolerance * 0.7)
      else 0.1
    else if icp.revenue_max < revenue then
      let distance : ℚ := ((revenue : ℤ) - (icp.revenue_max : ℤ) : ℤ)
      if distance ≤ tolerance then pyMax 0.3 (1 - distance / tolerance * 0.7)
      else 0.1
    else 0.1

/-- Python `int(s)` on an all-digit decimal string. -/
def digitsToNat (s : String) : Nat :=
  s.toList.foldl (fun n c => n * 10 + (c.toNat - 48)) 0

/-- Founded-year bonus of `_score_quality_indicators`: Python
`if founded_year and founded_year.isdigit()` admits only a non-empty
all-digit string, then `age = 2025 - int(founded_year)`. -/
def foundedYearBonus (c : Company) : ℚ :=
  match c.year_founded with
  | none => 0
  | some s =>
    if s ≠ "" ∧ s.toList.all Char.isDigit then
      let year : ℤ := (digitsToNat s : ℤ)
      let age : ℤ := 2025 - year
      if 5 ≤ age ∧ age ≤ 20 then 0.3
      else if age < 5 then 0.2
      else if 20 < age then 0.25
      else 0
    else 0

/-- Headquarters bonus of `_score_quality_indicators`: the Python `or`
chain over the three address fields, then a truthiness test. -/
def hqBonus (c : Company) : ℚ :=
  if strTruthy (pyOrStr (pyOrStr c.headquarters c.hq_street_address) c.hq_country)
  then 0.2 else 0

/-- Taxonomy-detail bonus of `_score_quality_indicators`
(`len(linkedin_industries) >= 2`). -/
def taxonomyBonus (c : Company) : ℚ :=
  match c.taxonomy with
  | some t => if 2 ≤ t.linkedin_industries.length then 0.2 else 0
  | none => 0

/-- Headcount bonus of `_score_quality_indicators`, with the source's
branch order: `if emp_count >= 100: +0.15 elif emp_count >= 500: +0.25`. -/
def headcountBonus (c : Company) : ℚ :=
  if 100 ≤ c.linkedin_headcount then 0.15
  else if 500 ≤ c.linkedin_headcount then 0.25
  else 0

/-- Revenue bonus of `_score_quality_indicators` (`>= $10M → +0.15`). -/
def revenueBonus (c : Company) : ℚ :=
  if 10000000 ≤ c.estimated_revenue_lower_bound_usd then 0.15 else 0

/-- Function `_score_quality_indicators` from `scoring_service.py`. -/
def score_quality_indicators (c : Company) : ℚ :=
  pyMin (foundedYearBonus c + hqBonus c + taxonomyBonus c
        + headcountBonus c + revenueBonus c) 1

/-- Function `_calculate_icp_score` from `scoring_service.py`: weighted sum of the
four sub-scores, clamped to at most `1.0`. -/
def calculate_icp_score (c : Company) (icp : ICP) : ℚ :=
  pyMin (score_industry_match c icp * 0.4 + score_size_match c icp * 0.3
        + score_revenue_match c icp * 0.2 + score_quality_indicators c * 0.1) 1

/-- Python `round(x, 3)`: modelled as rounding `x * 1000` to the nearest
integer (round-half-even vs round-half-up differences never arise in the
properties below) and dividing back. -/
def pyRound3 (q : ℚ) : ℚ := ((round (q * 1000) : ℤ) : ℚ) / 1000

/-- Model `CompanyResult` from `models.py` (typed view; the pydantic `float`
score is a rational here). -/
structure CompanyResult where
  name : String
  domain : String
  headcount : Nat
  revenue : Nat
  headquarters : Option String
  score : ℚ
  industries : List String
  founded_year : Option String
deriving DecidableEq, Repr

/-- Worker for `dedupKeepFirst`: drop elements already in `seen`. -/
def dedupSeen {α : Type} [DecidableEq α] (seen : List α) : List α → List α
  | [] => []
  | a :: as => if a ∈ seen then dedupSeen seen as else a :: dedupSeen (a :: seen) as

/-- Python `list(dict.fromkeys(l))`: removes duplicates keeping the first
occurrence of each element, in insertion order. -/
def dedupKeepFirst {α : Type} [DecidableEq α] (l : List α) : List α :=
  dedupSeen [] l

/-- Function `_convert_to_result` from `scoring_service.py`, on the typed record
view (the dynamic/malformed-input behaviour is modelled separately
below). -/
def convert_to_result (c : Company) (score : ℚ) : CompanyResult :=
  { name := c.company_name.getD "Unknown Company"
    domain := c.company_website_domain.getD ""
    headcount := c.linkedin_headcount
    revenue := c.estimated_revenue_lower_bound_usd
    headquarters := pyOrStr (pyOrStr c.headquarters c.hq_street_address) c.hq_country
    score := pyRound3 score
    industries := (dedupKeepFirst (companyIndustries c)).take 3
    founded_year := c.year_founded }

/-- The descending comparison used by
`sorted(scored_companies, key=lambda x: x.score, reverse=True)`. -/
def scoreDescLe (a b : CompanyResult) : Bool :=
  decide (b.score ≤ a.score)

/-- Function `score_companies` from `scoring_service.py`: score each record,
convert it, and stable-sort by score, highest first.  Python's `sorted`
is a stable sort, so it is modelled by `List.mergeSort` with the
descending comparison. -/
def score_companies (companies : List Company) (icp : ICP) : List CompanyResult :=
  let scored := companies.map (fun c => convert_to_result c (calculate_icp_score c icp))
  scored.mergeSort scoreDescLe

/-- The result-shaping step of the `/search-companies` endpoint in
`main.py`: `top_companies = scored_companies[:20]` together with
`total_found = len(scored_companies)`. -/
def search_companies_top (companies : List Company) (icp : ICP) :
    List CompanyResult × Nat :=
  let scored := score_companies companies icp
  (scored.take 20, scored.length)

/-- A value in a Crust discovery-filter condition (string or int). -/
inductive FilterVal where
  | str (s : String)
  | int (n : Nat)
deriving DecidableEq, Repr

/-- A node of the filter tree built by `_build_discovery_filters` in
`crust_service.py`: either a leaf condition
`{"column": …, "type": …, "value": …, "allow_null": …}` or an operator
group `{"op": …, "conditions": […]}`. -/
inductive FilterCond where
  | leaf (column : String) (type_ : String) (value : FilterVal) (allow_null : Bool)
  | group (op : String) (conditions : List FilterCond)
deriving Repr

/-- The four per-industry conditions appended for each target industry. -/
def industryConditions (industry : String) : List FilterCond :=
  [ .leaf "linkedin_industries" "(.)" (.str industry) true
  , .leaf "linkedin_categories" "(.)" (.str industry) true
  , .leaf "crunchbase_categories" "(.)" (.str industry) true
  , .leaf "markets" "(.)" (.str industry) true ]

/-- Function `_build_discovery_filters` from `crust_service.py`.  The
`is not None` guards on the numeric bounds are always true, because the
pydantic `ICP` model declares all four bounds as required ints. -/
def build_discovery_filters (icp : ICP) : FilterCond :=
  let industryGroup : List FilterCond :=
    if icp.industries ≠ [] then
      [.group "or" (icp.industries.flatMap industryConditions)]
    else []
  let headcountConds : List FilterCond :=
    [ .leaf "linkedin_headcount" "=>" (.int icp.headcount_min) false
    , .leaf "linkedin_headcount" "=<" (.int icp.headcount_max) false ]
  let revenueConds : List FilterCond :=
    [ .leaf "estimated_revenue_lower_bound_usd" "=>" (.int icp.revenue_min) false
    , .leaf "estimated_revenue_lower_bound_usd" "=<" (.int icp.revenue_max) false ]
  .group "and" (industryGroup ++ headcountConds ++ revenueConds)

/-! ### Dynamic view of raw records, for `_convert_to_result` on
arbitrary (possibly malformed) input.

A raw company record is an arbitrary Python mapping; values are modelled
by `PyVal`.  Only the operations `_convert_to_result` performs are
modelled: `dict.get` with a default, `isinstance(…, dict)` dispatch,
list/str concatenation with `+` (a `TypeError` on mismatched operand
types), `dict.fromkeys` (a `TypeError` on unhashable keys or a
non-iterable argument), the `or` chain with Python truthiness, and the
final `CompanyResult(…)` pydantic validation, modelled as plain type
checks on the field values. -/

/-- A Python value as it can appear in a raw company record. -/
inductive PyVal where
  | none
  | bool (b : Bool)
  | int (n : ℤ)
  | str (s : String)
  | list (xs : List PyVal)
  | dict (kvs : List (String × PyVal))

/-- A hashable Python scalar (usable as a `dict` key). -/
inductive PyScalar where
  | none
  | bool (b : Bool)
  | int (n : ℤ)
  | str (s : String)
deriving DecidableEq, Repr

/-- Hashable projection: `list` and `dict` values are unhashable. -/
def PyVal.toScalar : PyVal → Option PyScalar
  | .none => some .none
  | .bool b => some (.bool b)
  | .int n => some (.int n)
  | .str s => some (.str s)
  | .list _ => Option.none
  | .dict _ => Option.none

def PyScalar.toVal : PyScalar → PyVal
  | .none => .none
  | .bool b => .bool b
  | .int n => .int n
  | .str s => .str s

/-- Python truthiness. -/
def PyVal.truthy : PyVal → Bool
  | .none => false
  | .bool b => b
  | .int n => n ≠ 0
  | .str s => s ≠ ""
  | .list xs => !xs.isEmpty
  | .dict d => !d.isEmpty

/-- Python `d.get(k, default)`. -/
def pyGet (d : List (String × PyVal)) (k : String) (dflt : PyVal) : PyVal :=
  match d.find? (fun kv => kv.1 == k) with
  | some kv => kv.2
  | Option.none => dflt

/-- Python `a or b`. -/
def pyOr (a b : PyVal) : PyVal := if a.truthy then a else b

/-- Python `a + b` on record values: list+list and str+str concatenate,
numbers add (`bool` counts as a number), and any other combination raises
`TypeError`. -/
def pyConcat : PyVal → PyVal → Except String PyVal
  | .list xs, .list ys => .ok (.list (xs ++ ys))
  | .str s, .str t => .ok (.str (s ++ t))
  | .int m, .int n => .ok (.int (m + n))
  | .int m, .bool b => .ok (.int (m + if b then 1 else 0))
  | .bool b, .int n => .ok (.int ((if b then 1 else 0) + n))
  | .bool a, .bool b => .ok (.int ((if a then 1 else 0) + if b then 1 else 0))
  | _, _ => .error "TypeError: unsupported operand types for +"

/-- Python `list(dict.fromkeys(v))`: deduplicates an iterable keeping
first occurrences; raises on unhashable elements or a non-iterable
argument.  Iterating a string yields its characters. -/
def pyDedup : PyVal → Except String (List PyVal)
  | .list xs =>
    match xs.mapM PyVal.toScalar with
    | some ss => .ok ((dedupKeepFirst ss).map PyScalar.toVal)
    | Option.none => .error "TypeError: unhashable type"
  | .str s => .ok ((dedupKeepFirst s.toList).map (fun ch => PyVal.str (String.mk [ch])))
  | _ => .error "TypeError: argument is not iterable"

/-- Result `CompanyResult` as produced from a dynamic record (`headcount` and
`revenue` are arbitrary Python ints here). -/
structure PyCompanyResult where
  name : String
  domain : String
  headcount : ℤ
  revenue : ℤ
  headquarters : Option String
  score : ℚ
  industries : List String
  founded_year : Option String
deriving DecidableEq, Repr

/-- Validation of a `CompanyResult` `str` field. -/
def asStr : PyVal → Except String String
  | .str s => .ok s
  | _ => .error "ValidationError: str expected"

/-- Validation of a `CompanyResult` `int` field. -/
def asInt : PyVal → Except String ℤ
  | .int n => .ok n
  | _ => .error "ValidationError: int expected"

/-- Validation of a `CompanyResult` `Optional[str]` field. -/
def asOptStr : PyVal → Except String (Option String)
  | .none => .ok Option.none
  | .str s => .ok (some s)
  | _ => .error "ValidationError: Optional[str] expected"

/-- Validation of a `CompanyResult` `List[str]` field. -/
def asStrList (xs : List PyVal) : Except String (List String) :=
  xs.mapM asStr

/-- The headcount extraction of `_convert_to_result`:
`headcount_data = company.get('headcount', {})`, then
`headcount_data.get('linkedin_headcount', 0)` when it is a dict, else
`0`. -/
def extractEmpPy (company : List (String × PyVal)) : PyVal :=
  match pyGet company "headcount" (.dict []) with
  | .dict d => pyGet d "linkedin_headcount" (.int 0)
  | _ => .int 0

/-- The industries extraction of `_convert_to_result`:
`taxonomy = company.get('taxonomy', {})`, then, when it is a dict,
`taxonomy.get('linkedin_industries', []) + taxonomy.get('crunchbase_categories', [])`
(which can raise `TypeError`), else `[]`. -/
def extractIndustriesPy (company : List (String × PyVal)) : Except String PyVal :=
  match pyGet company "taxonomy" (.dict []) with
  | .dict d =>
    pyConcat (pyGet d "linkedin_industries" (.list []))
      (pyGet d "crunchbase_categories" (.list []))
  | _ => .ok (.list [])

/-- Function `_convert_to_result` from `scoring_service.py` on a dynamic record:
every Python-level failure (a `TypeError` inside the function or a
pydantic `ValidationError` while building `CompanyResult`) surfaces as
`.error`. -/
def convert_to_result_py (company : List (String × PyVal)) (score : ℚ) :
    Except String PyCompanyResult := do
  let emp : PyVal := extractEmpPy company
  let industries ← extractIndustriesPy company
  let unique ← pyDedup industries
  let uniqueTop3 := unique.take 3
  let hq := pyOr (pyOr (pyGet company "headquarters" .none)
      (pyGet company "hq_street_address" .none))
    (pyGet company "hq_country" .none)
  let name ← asStr (pyGet company "company_name" (.str "Unknown Company"))
  let domain ← asStr (pyGet company "company_website_domain" (.str ""))
  let headcountVal ← asInt emp
  let revenueVal ← asInt (pyGet company "estimated_revenue_lower_bound_usd" (.int 0))
  let headquarters ← asOptStr hq
  let industriesS ← asStrList uniqueTop3
  let founded ← asOptStr (pyGet company "year_founded" .none)
  return ⟨name, domain, headcountVal, revenueVal, headquarters,
    pyRound3 score, industriesS, founded⟩

/-- Shape check for one key of a mapping: if the key is present its value
must satisfy `p`; an absent key is always fine. -/
def shapeOk (p : PyVal → Bool) (d : List (String × PyVal)) (k : String) : Bool :=
  match d.find? (fun kv => kv.1 == k) with
  | some kv => p kv.2
  | Option.none => true

def isStrVal : PyVal → Bool
  | .str _ => true
  | _ => false

def isIntVal : PyVal → Bool
  | .int _ => true
  | _ => false

def isOptStrVal : PyVal → Bool
  | .none => true
  | .str _ => true
  | _ => false

def isStrListVal : PyVal → Bool
  | .list xs => xs.all isStrVal
  | _ => false

/-- Whether a hashable scalar is a string. -/
def isStrScalar : PyScalar → Bool
  | .str _ => true
  | _ => false

/-- Shape of a `taxonomy` value the code survives: anything non-dict
(discarded by the `isinstance` check), or a dict whose industry keys, when
present, hold lists of strings. -/
def taxonomyShapeOk : PyVal → Bool
  | .dict d =>
    shapeOk isStrListVal d "linkedin_industries" &&
      shapeOk isStrListVal d "crunchbase_categories"
  | _ => true

/-- Shape of a `headcount` value: anything non-dict, or a dict whose
`linkedin_headcount`, when present, is an int. -/
def headcountShapeOk : PyVal → Bool
  | .dict d => shapeOk isIntVal d "linkedin_headcount"
  | _ => true

/-- A raw record is well-shaped when each field `_convert_to_result`
reads, if present at all, has a type the function and the
`CompanyResult` model accept. -/
def wellShaped (company : List (String × PyVal)) : Bool :=
  shapeOk taxonomyShapeOk company "taxonomy" &&
  shapeOk headcountShapeOk company "headcount" &&
  shapeOk isStrVal company "company_name" &&
  shapeOk isStrVal company "company_website_domain" &&
  shapeOk isIntVal company "estimated_revenue_lower_bound_usd" &&
  shapeOk isOptStrVal company "headquarters" &&
  shapeOk isOptStrVal company "hq_street_address" &&
  shapeOk isOptStrVal company "hq_country" &&
  shapeOk isOptStrVal company "year_founded"

/-- Whether an `Except` computation succeeded (did not raise). -/
def exceptOk {ε α : Type} : Except ε α → Bool
  | .ok _ => true
  | .error _ => false

/-! ### Concrete inputs used by the verification scenarios -/

/-- The ICP of the end-to-end scenario. -/
def techIcp : ICP := ⟨["Technology"], 1000000, 100000000, 50, 1000⟩

/-- The raw record of the end-to-end scenario (typed view). -/
def acme : Company :=
  { Company.empty with
    company_name := some "Acme"
    taxonomy := some ⟨["Technology"], []⟩
    linkedin_headcount := 500
    estimated_revenue_lower_bound_usd := 5000000
    year_founded := some "2015"
    headquarters := some "NYC" }

/-- A record whose only data is a headcount of 500. -/
def headcount500Only : Company :=
  { Company.empty with linkedin_headcount := 500 }

/-- A record whose only data is `year_founded = "2015-06"`. -/
def founded201506Only : Company :=
  { Company.empty with year_founded := some "2015-06" }

/-- The Filter-Builder round-trip ICP. -/
def fintechIcp : ICP := ⟨["Fintech"], 1000000, 100000000, 50, 1000⟩

/-- An ICP with no targets and zero ranges (neutral for scoring). -/
def emptyIcp : ICP := ⟨[], 0, 0, 0, 0⟩

/-- Two records that differ only in name, hence score identically. -/
def companyA : Company := { Company.empty with company_name := some "A" }

/-- See `companyA`. -/
def companyB : Company := { Company.empty with company_name := some "B" }

/-- A record whose only data is one industry, `"Fintech"`. -/
def fintechCompany : Company :=
  { Company.empty with taxonomy := some ⟨["Fintech"], []⟩ }

/-- A record out of range on both degenerate point ranges of `pointIcp`. -/
def outOfRangeCompany : Company :=
  { Company.empty with linkedin_headcount := 9, estimated_revenue_lower_bound_usd := 9 }

/-- An ICP with degenerate (point) headcount and revenue ranges. -/
def pointIcp : ICP := ⟨[], 5, 5, 7, 7⟩

/-- A raw record whose `taxonomy.linkedin_industries` is a string instead
of a list. -/
def malformedTaxonomyRecord : List (String × PyVal) :=
  [("taxonomy", .dict [("linkedin_industries", .str "tech")])]

/-! ### Theorems -/

theorem pyMin_eq (a b : ℚ) : pyMin a b = min a b := (min_def a b).symm

theorem pyMax_eq (a b : ℚ) : pyMax a b = max a b := (max_def a b).symm

/-- C1: For the ICP `{industries:["Technology"], revenue_min:1000000,
revenue_max:100000000, headcount_min:50, headcount_max:1000}` and the raw
record `{company_name:"Acme", taxonomy:{linkedin_industries:["Technology"]},
headcount:{linkedin_headcount:500}, estimated_revenue_lower_bound_usd:5000000,
year_founded:"2015", headquarters:"NYC"}`, the Scoring Engine returns
exactly `0.965` (`0.4·1.0 + 0.3·1.0 + 0.2·1.0 + 0.1·0.65`), and the
three-decimal rounding in `_convert_to_result` leaves it unchanged. -/
theorem acme_scores_exactly_0_965 :
    calculate_icp_score acme techIcp = 0.965 ∧
    (convert_to_result acme (calculate_icp_score acme techIcp)).score = 0.965 := by
  have h : calculate_icp_score acme techIcp = 0.965 := by
    norm_num +decide [calculate_icp_score, score_industry_match, score_size_match,
      score_revenue_match, score_quality_indicators, foundedYearBonus, hqBonus,
      taxonomyBonus, headcountBonus, revenueBonus, pyMin, pyMax, companyIndustries,
      countMatches, matchTarget, industryScoreFromCounts, acme, techIcp,
      Company.empty, pyIn, strTruthy, pyOrStr, digitsToNat]
  refine ⟨h, ?_⟩
  have h965 : (0.965 : ℚ) * 1000 = ((965 : ℤ) : ℚ) := by norm_num
  simp [convert_to_result, pyRound3, h, h965, round_intCast]
  norm_num

/-- C2 (code bug): the source checks `emp_count >= 100` before
`emp_count >= 500`, so every record with headcount ≥ 100 — including all
records with headcount ≥ 500 — receives the `+0.15` bonus and the `+0.25`
tier is unreachable: a record with headcount exactly 500 and no other
quality signals scores `0.15`, not `0.25`. -/
theorem headcount_500_bonus_is_0_15 :
    score_quality_indicators headcount500Only = 0.15 ∧
    ∀ c : Company,
      headcountBonus c = if 100 ≤ c.linkedin_headcount then 0.15 else 0 := by
  constructor
  · norm_num +decide [score_quality_indicators, foundedYearBonus, hqBonus,
      taxonomyBonus, headcountBonus, revenueBonus, pyMin, headcount500Only,
      Company.empty, strTruthy, pyOrStr]
  · intro c
    unfold headcountBonus
    rcases le_or_lt 100 c.linkedin_headcount with h | h
    · simp [h]
    · have h5 : ¬ (500 ≤ c.linkedin_headcount) := by omega
      have h1 : ¬ (100 ≤ c.linkedin_headcount) := by omega
      simp [h1, h5]

/-- C5 counterexample: with `headcount_min = headcount_max = 0` and a
record whose headcount is `0`, `_score_size_match` returns the neutral
`0.5`, not `1.0`. -/
theorem size_match_h0_not_one :
    score_size_match { Company.empty with linkedin_headcount := 0 } ⟨[], 0, 0, 0, 0⟩ = 0.5 ∧
    score_size_match { Company.empty with linkedin_headcount := 0 } ⟨[], 0, 0, 0, 0⟩ ≠ 1 := by
  constructor
  · simp [score_size_match, Company.empty]
  · simp [score_size_match, Company.empty]
    norm_num

/-- C5 (amended): for every *positive* `h`, every ICP with
`headcount_min = headcount_max = h`, and every record whose headcount
equals `h`, the SizeScore is `1.0` (for `h = 0` the scorer instead
returns the neutral `0.5` for "no headcount data"). -/
theorem size_match_point_range_is_one (h : ℕ) (icp : ICP) (c : Company)
    (hpos : 0 < h) (hmin : icp.headcount_min = h) (hmax : icp.headcount_max = h)
    (hc : c.linkedin_headcount = h) :
    score_size_match c icp = 1 := by
  have hne : h ≠ 0 := by omega
  simp [score_size_match, hne, hmin, hmax, hc]

/-- Witness for the amended C5 at `h = 100`. -/
theorem size_match_point_range_is_one_witness :
    score_size_match { Company.empty with linkedin_headcount := 100 }
      ⟨[], 0, 0, 100, 100⟩ = 1 :=
  size_match_point_range_is_one 100 ⟨[], 0, 0, 100, 100⟩
    { Company.empty with linkedin_headcount := 100 }
    (by decide) rfl rfl rfl

/-- C8 counterexample: for `year_founded = "2015-06"` the whole-string
`isdigit()` test fails, so no founded-year bonus is applied at all — the
quality score of a record with only this field is `0`, not the `0.3` an
age-10 bonus would give. -/
theorem founded_2015_06_no_bonus :
    foundedYearBonus founded201506Only = 0 ∧
    score_quality_indicators founded201506Only = 0 := by
  constructor
  · norm_num +decide [foundedYearBonus, founded201506Only, Company.empty]
  · norm_num +decide [score_quality_indicators, foundedYearBonus, hqBonus,
      taxonomyBonus, headcountBonus, revenueBonus, pyMin, founded201506Only,
      Company.empty, strTruthy, pyOrStr]

/-- C8 (amended): the founded-year bonus is applied iff the *entire*
`year_founded` string is non-empty and all digits (Python
`founded_year.isdigit()`); a value such as `"2015-06"` yields no bonus,
and an all-digit value always yields one of the three age-band bonuses
`0.2`, `0.25`, `0.3`. -/
theorem founded_bonus_requires_all_digits (c : Company) (s : String)
    (hy : c.year_founded = some s) :
    (¬ (s ≠ "" ∧ s.toList.all Char.isDigit) → foundedYearBonus c = 0) ∧
    ((s ≠ "" ∧ s.toList.all Char.isDigit) →
      foundedYearBonus c ∈ ({0.2, 0.25, 0.3} : Set ℚ)) := by
  constructor
  · intro hnot
    simp only [foundedYearBonus, hy]
    rw [if_neg hnot]
  · intro hdig
    simp only [foundedYearBonus, hy]
    rw [if_pos hdig]
    set age : ℤ := 2025 - (digitsToNat s : ℤ) with hage
    by_cases h1 : 5 ≤ age ∧ age ≤ 20
    · simp [h1]
    · by_cases h2 : age < 5
      · simp [h1, h2]
      · have h3 : 20 < age := by omega
        simp [h1, h2, h3]

/-- Witness for the amended C8 at `year_founded = "2015-06"`. -/
theorem founded_bonus_requires_all_digits_witness :
    foundedYearBonus founded201506Only = 0 :=
  (founded_bonus_requires_all_digits founded201506Only "2015-06" rfl).1 (by decide)

/-- C7: the Filter Builder applied to
`{industries:["Fintech"], headcount_min:50, headcount_max:1000,
revenue_min:1000000, revenue_max:100000000}` produces an AND root holding
exactly one OR group of industry `"(.)"` (contains) conditions with
`allow_null = true`, followed by exactly the four numeric leaves
`headcount ≥ 50`, `headcount ≤ 1000`, `revenue ≥ 1000000`,
`revenue ≤ 100000000`, each with `allow_null = false`. -/
theorem build_filters_fintech :
    build_discovery_filters fintechIcp =
      .group "and"
        [ .group "or"
            [ .leaf "linkedin_industries" "(.)" (.str "Fintech") true
            , .leaf "linkedin_categories" "(.)" (.str "Fintech") true
            , .leaf "crunchbase_categories" "(.)" (.str "Fintech") true
            , .leaf "markets" "(.)" (.str "Fintech") true ]
        , .leaf "linkedin_headcount" "=>" (.int 50) false
        , .leaf "linkedin_headcount" "=<" (.int 1000) false
        , .leaf "estimated_revenue_lower_bound_usd" "=>" (.int 1000000) false
        , .leaf "estimated_revenue_lower_bound_usd" "=<" (.int 100000000) false ] := by
  rfl

theorem exbind_ok {ε α β : Type} (a : α) (f : α → Except ε β) :
    (Except.ok a : Except ε α) >>= f = f a := rfl

theorem exbind_error {ε α β : Type} (e : ε) (f : α → Except ε β) :
    (Except.error e : Except ε α) >>= f = Except.error e := rfl

theorem pyGet_shape {p : PyVal → Bool} {d : List (String × PyVal)} {k : String}
    {dflt : PyVal} (h : shapeOk p d k = true) (hd : p dflt = true) :
    p (pyGet d k dflt) = true := by
  rcases hfind : List.find? (fun kv => kv.1 == k) d with _ | kv
  · simp only [pyGet, hfind]
    exact hd
  · simp only [shapeOk, hfind] at h
    simp only [pyGet, hfind]
    exact h

theorem asStr_exists {v : PyVal} (h : isStrVal v = true) :
    ∃ s, asStr v = .ok s := by
  cases v <;> first | exact ⟨_, rfl⟩ | simp [isStrVal] at h

theorem asInt_exists {v : PyVal} (h : isIntVal v = true) :
    ∃ n, asInt v = .ok n := by
  cases v <;> first | exact ⟨_, rfl⟩ | simp [isIntVal] at h

theorem asOptStr_exists {v : PyVal} (h : isOptStrVal v = true) :
    ∃ o, asOptStr v = .ok o := by
  cases v <;> first | exact ⟨_, rfl⟩ | simp [isOptStrVal] at h

theorem isStrListVal_elim {v : PyVal} (h : isStrListVal v = true) :
    ∃ xs, v = .list xs ∧ xs.all isStrVal = true := by
  cases v <;> first | exact ⟨_, rfl, h⟩ | exact Bool.noConfusion h

theorem pyConcat_strList {a b : PyVal} (ha : isStrListVal a = true)
    (hb : isStrListVal b = true) :
    ∃ xs, pyConcat a b = .ok (.list xs) ∧ xs.all isStrVal = true := by
  obtain ⟨xs, rfl, hxs⟩ := isStrListVal_elim ha
  obtain ⟨ys, rfl, hys⟩ := isStrListVal_elim hb
  refine ⟨xs ++ ys, rfl, ?_⟩
  rw [List.all_append, hxs, hys]
  rfl

theorem pyOr_optStr {a b : PyVal} (ha : isOptStrVal a = true)
    (hb : isOptStrVal b = true) : isOptStrVal (pyOr a b) = true := by
  unfold pyOr
  split <;> assumption

theorem mapM_toScalar_strs {xs : List PyVal} (h : xs.all isStrVal = true) :
    ∃ ss, xs.mapM PyVal.toScalar = some ss ∧ ss.all isStrScalar = true := by
  induction xs with
  | nil => exact ⟨[], rfl, rfl⟩
  | cons x xs ih =>
    rw [List.all_cons, Bool.and_eq_true] at h
    obtain ⟨ss, hss, hall⟩ := ih h.2
    obtain ⟨s, rfl⟩ : ∃ s, x = PyVal.str s := by
      cases x <;> first | exact ⟨_, rfl⟩ | exact Bool.noConfusion h.1
    refine ⟨.str s :: ss, ?_, ?_⟩
    · rw [List.mapM_cons, hss]
      rfl
    · rw [List.all_cons, hall]
      rfl

theorem dedupSeen_sublist {α : Type} [DecidableEq α] (l : List α) :
    ∀ seen : List α, List.Sublist (dedupSeen seen l) l := by
  induction l with
  | nil => intro seen; exact List.Sublist.refl []
  | cons a as ih =>
    intro seen
    rw [dedupSeen]
    split
    · exact (ih seen).cons a
    · exact (ih (a :: seen)).cons₂ a

theorem dedupKeepFirst_sublist {α : Type} [DecidableEq α] (l : List α) :
    List.Sublist (dedupKeepFirst l) l :=
  dedupSeen_sublist l []

theorem all_of_sublist {α : Type} {p : α → Bool} {l₁ l₂ : List α}
    (hs : List.Sublist l₁ l₂) (h : l₂.all p = true) : l₁.all p = true := by
  rw [List.all_eq_true] at h ⊢
  exact fun a ha => h a (hs.subset ha)

theorem map_toVal_strs {ss : List PyScalar} (h : ss.all isStrScalar = true) :
    (ss.map PyScalar.toVal).all isStrVal = true := by
  induction ss with
  | nil => rfl
  | cons s ss ih =>
    rw [List.all_cons, Bool.and_eq_true] at h
    rw [List.map_cons, List.all_cons, ih h.2, Bool.and_true]
    cases s <;> first | rfl | exact absurd h.1 (by simp [isStrScalar])

theorem pyDedup_strList {xs : List PyVal} (h : xs.all isStrVal = true) :
    ∃ ys, pyDedup (.list xs) = .ok ys ∧ ys.all isStrVal = true := by
  obtain ⟨ss, hss, hall⟩ := mapM_toScalar_strs h
  refine ⟨(dedupKeepFirst ss).map PyScalar.toVal, ?_, ?_⟩
  · simp only [pyDedup, hss]
  · exact map_toVal_strs (all_of_sublist (dedupKeepFirst_sublist ss) hall)

theorem asStrList_exists {xs : List PyVal} (h : xs.all isStrVal = true) :
    ∃ l, asStrList xs = .ok l := by
  induction xs with
  | nil => exact ⟨[], rfl⟩
  | cons x xs ih =>
    rw [List.all_cons, Bool.and_eq_true] at h
    obtain ⟨s, hs⟩ := asStr_exists h.1
    obtain ⟨l, hl⟩ := ih h.2
    refine ⟨s :: l, ?_⟩
    simp only [asStrList, List.mapM_cons] at hl ⊢
    rw [hs, hl]
    rfl

theorem extractIndustriesPy_strList {company : List (String × PyVal)}
    (h : shapeOk taxonomyShapeOk company "taxonomy" = true) :
    ∃ xs, extractIndustriesPy company = .ok (.list xs) ∧ xs.all isStrVal = true := by
  have htaxv := pyGet_shape h (rfl : taxonomyShapeOk (.dict []) = true)
  unfold extractIndustriesPy
  cases hv : pyGet company "taxonomy" (PyVal.dict []) <;> try exact ⟨[], rfl, rfl⟩
  rw [hv] at htaxv
  simp only [taxonomyShapeOk, Bool.and_eq_true] at htaxv
  exact pyConcat_strList (pyGet_shape htaxv.1 rfl) (pyGet_shape htaxv.2 rfl)

theorem extractEmpPy_int {company : List (String × PyVal)}
    (h : shapeOk headcountShapeOk company "headcount" = true) :
    isIntVal (extractEmpPy company) = true := by
  have hhcv := pyGet_shape h (rfl : headcountShapeOk (.dict []) = true)
  unfold extractEmpPy
  cases hv : pyGet company "headcount" (PyVal.dict []) <;> try rfl
  rw [hv] at hhcv
  simp only [headcountShapeOk] at hhcv
  exact pyGet_shape hhcv rfl

/-- C9 (amended): `_convert_to_result` never raises on records whose
*present* fields have the types the code and the `CompanyResult` model
expect (missing fields are always fine and degrade to the defaults: name
`"Unknown Company"`, domain `""`, headcount `0`, revenue `0`, null
headquarters, empty deduplicated industries list, null founded year).
It can, however, raise on malformed field values — see the
counterexample with a string-valued `taxonomy.linkedin_industries`. -/
theorem convert_wellShaped_never_raises (company : List (String × PyVal)) (score : ℚ)
    (h : wellShaped company = true) :
    exceptOk (convert_to_result_py company score) = true ∧
    convert_to_result_py [] score =
      .ok ⟨"Unknown Company", "", 0, 0, Option.none, pyRound3 score, [], Option.none⟩ := by
  constructor
  case right => simp only [convert_to_result_py]; rfl
  simp only [wellShaped, Bool.and_eq_true] at h
  obtain ⟨⟨⟨⟨⟨⟨⟨⟨htax, hhc⟩, hname⟩, hdom⟩, hrev⟩, hhq⟩, hhsa⟩, hhcc⟩, hyf⟩ := h
  obtain ⟨xs, hxs_eq, hxs_all⟩ := extractIndustriesPy_strList htax
  obtain ⟨ys, hys_eq, hys_all⟩ := pyDedup_strList hxs_all
  obtain ⟨nm, hnm⟩ := asStr_exists
    (pyGet_shape hname (rfl : isStrVal (.str "Unknown Company") = true))
  obtain ⟨dm, hdm⟩ := asStr_exists (pyGet_shape hdom (rfl : isStrVal (.str "") = true))
  obtain ⟨hc, hhcn⟩ := asInt_exists (extractEmpPy_int hhc)
  obtain ⟨rv, hrvn⟩ := asInt_exists (pyGet_shape hrev (rfl : isIntVal (.int 0) = true))
  obtain ⟨hq, hhqn⟩ := asOptStr_exists
    (pyOr_optStr
      (pyOr_optStr (pyGet_shape hhq (rfl : isOptStrVal .none = true))
        (pyGet_shape hhsa (rfl : isOptStrVal .none = true)))
      (pyGet_shape hhcc (rfl : isOptStrVal .none = true)))
  obtain ⟨il, hil⟩ := asStrList_exists
    (all_of_sublist (List.take_sublist 3 ys) hys_all)
  obtain ⟨fo, hfo⟩ := asOptStr_exists
    (pyGet_shape hyf (rfl : isOptStrVal .none = true))
  simp only [convert_to_result_py, hxs_eq, exbind_ok, hys_eq, hnm, hdm, hhcn,
    hrvn, hhqn, hil, hfo]
  rfl

/-- C9 counterexample: the record
`{taxonomy: {linkedin_industries: "tech"}}` makes `_convert_to_result`
raise (`'tech' + []` is a Python `TypeError`), so conversion does *not*
tolerate every malformed field. -/
theorem convert_malformed_taxonomy_raises :
    exceptOk (convert_to_result_py malformedTaxonomyRecord 0) = false := by
  rfl

/-- Witness for the amended C9 on a concrete well-shaped record. -/
theorem convert_wellShaped_never_raises_witness :
    exceptOk (convert_to_result_py
      [("company_name", .str "Acme"),
       ("taxonomy", .dict [("linkedin_industries", .list [.str "Tech", .str "Tech", .str "SaaS"])]),
       ("headcount", .dict [("linkedin_headcount", .int 500)])] 0) = true ∧
    convert_to_result_py [] 0 =
      .ok ⟨"Unknown Company", "", 0, 0, Option.none, pyRound3 0, [], Option.none⟩ :=
  convert_wellShaped_never_raises
    [("company_name", .str "Acme"),
     ("taxonomy", .dict [("linkedin_industries", .list [.str "Tech", .str "Tech", .str "SaaS"])]),
     ("headcount", .dict [("linkedin_headcount", .int 500)])] 0 (by rfl)

theorem industryScoreFromCounts_nonneg (e p T : Nat) :
    0 ≤ industryScoreFromCounts e p T := by
  unfold industryScoreFromCounts
  split
  · rw [pyMin_eq]
    refine le_min (by norm_num) ?_
    positivity
  · split
    · rw [pyMin_eq]
      refine le_min (by norm_num) ?_
      positivity
    · norm_num

theorem score_industry_match_nonneg (c : Company) (icp : ICP) :
    0 ≤ score_industry_match c icp := by
  unfold score_industry_match
  dsimp only
  split
  · norm_num
  · exact industryScoreFromCounts_nonneg _ _ _

theorem score_size_match_nonneg (c : Company) (icp : ICP) :
    0 ≤ score_size_match c icp := by
  unfold score_size_match
  dsimp only
  split
  · norm_num
  split
  · norm_num
  split
  · split
    · rw [pyMax_eq]
      exact le_trans (by norm_num) (le_max_left _ _)
    · norm_num
  split
  · split
    · rw [pyMax_eq]
      exact le_trans (by norm_num) (le_max_left _ _)
    · norm_num
  · norm_num

theorem score_revenue_match_nonneg (c : Company) (icp : ICP) :
    0 ≤ score_revenue_match c icp := by
  unfold score_revenue_match
  dsimp only
  split
  · norm_num
  split
  · norm_num
  split
  · split
    · rw [pyMax_eq]
      exact le_trans (by norm_num) (le_max_left _ _)
    · norm_num
  split
  · split
    · rw [pyMax_eq]
      exact le_trans (by norm_num) (le_max_left _ _)
    · norm_num
  · norm_num

theorem foundedYearBonus_nonneg (c : Company) : 0 ≤ foundedYearBonus c := by
  unfold foundedYearBonus
  split
  · norm_num
  · split
    · dsimp only
      split
      · norm_num
      split
      · norm_num
      split <;> norm_num
    · norm_num

theorem hqBonus_nonneg (c : Company) : 0 ≤ hqBonus c := by
  unfold hqBonus
  split <;> norm_num

theorem taxonomyBonus_nonneg (c : Company) : 0 ≤ taxonomyBonus c := by
  unfold taxonomyBonus
  split
  · split <;> norm_num
  · norm_num

theorem headcountBonus_nonneg (c : Company) : 0 ≤ headcountBonus c := by
  unfold headcountBonus
  split
  · norm_num
  split <;> norm_num

theorem revenueBonus_nonneg (c : Company) : 0 ≤ revenueBonus c := by
  unfold revenueBonus
  split <;> norm_num

theorem score_quality_indicators_nonneg (c : Company) :
    0 ≤ score_quality_indicators c := by
  unfold score_quality_indicators
  rw [pyMin_eq]
  refine le_min ?_ (by norm_num)
  have h1 := foundedYearBonus_nonneg c
  have h2 := hqBonus_nonneg c
  have h3 := taxonomyBonus_nonneg c
  have h4 := headcountBonus_nonneg c
  have h5 := revenueBonus_nonneg c
  linarith

/-- C3: for every company record and every ICP, the final score of
`_calculate_icp_score` lies in the closed interval `[0, 1]`, whatever the
four sub-scores are: the weighted sum of the (individually non-negative)
sub-scores is non-negative, and the final `min(…, 1.0)` clamp bounds it
above by `1`. -/
theorem icp_score_in_unit_interval (c : Company) (icp : ICP) :
    0 ≤ calculate_icp_score c icp ∧ calculate_icp_score c icp ≤ 1 := by
  unfold calculate_icp_score
  rw [pyMin_eq]
  constructor
  · refine le_min ?_ (by norm_num)
    have h1 := score_industry_match_nonneg c icp
    have h2 := score_size_match_nonneg c icp
    have h3 := score_revenue_match_nonneg c icp
    have h4 := score_quality_indicators_nonneg c
    linarith
  · exact min_le_right _ _

/-- C10: with a degenerate ICP range (`min = max`, hence tolerance `0`),
any non-zero out-of-range value takes the final `0.1` branch in both
`_score_size_match` and `_score_revenue_match`: the guard
`distance <= tolerance` fails (the distance is at least `1`), so the
`distance / tolerance` division is never evaluated and both scorers are
total on all inputs. -/
theorem degenerate_range_no_division (icp : ICP) (c : Company)
    (hh : icp.headcount_min = icp.headcount_max)
    (hr : icp.revenue_min = icp.revenue_max)
    (h1 : c.linkedin_headcount ≠ 0)
    (h2 : ¬ (icp.headcount_min ≤ c.linkedin_headcount ∧
      c.linkedin_headcount ≤ icp.headcount_max))
    (h3 : c.estimated_revenue_lower_bound_usd ≠ 0)
    (h4 : ¬ (icp.revenue_min ≤ c.estimated_revenue_lower_bound_usd ∧
      c.estimated_revenue_lower_bound_usd ≤ icp.revenue_max)) :
    score_size_match c icp = 0.1 ∧ score_revenue_match c icp = 0.1 := by
  constructor
  · unfold score_size_match
    dsimp only
    rw [if_neg h1, if_neg h2]
    by_cases hlt : c.linkedin_headcount < icp.headcount_min
    · rw [if_pos hlt, if_neg ?_]
      intro hle
      push_cast at hle
      rw [hh] at hle
      have hlt2 : (c.linkedin_headcount : ℚ) < (icp.headcount_max : ℚ) := by
        exact_mod_cast hh ▸ hlt
      linarith
    · have hgt : icp.headcount_max < c.linkedin_headcount := by omega
      rw [if_neg hlt, if_pos hgt, if_neg ?_]
      intro hle
      push_cast at hle
      rw [hh] at hle
      have hlt2 : (icp.headcount_max : ℚ) < (c.linkedin_headcount : ℚ) := by
        exact_mod_cast hgt
      linarith
  · unfold score_revenue_match
    dsimp only
    rw [if_neg h3, if_neg h4]
    by_cases hlt : c.estimated_revenue_lower_bound_usd < icp.revenue_min
    · rw [if_pos hlt, if_neg ?_]
      intro hle
      push_cast at hle
      rw [hr] at hle
      have hlt2 : (c.estimated_revenue_lower_bound_usd : ℚ) < (icp.revenue_max : ℚ) := by
        exact_mod_cast hr ▸ hlt
      linarith
    · have hgt : icp.revenue_max < c.estimated_revenue_lower_bound_usd := by omega
      rw [if_neg hlt, if_pos hgt, if_neg ?_]
      intro hle
      push_cast at hle
      rw [hr] at hle
      have hlt2 : (icp.revenue_max : ℚ) < (c.estimated_revenue_lower_bound_usd : ℚ) := by
        exact_mod_cast hgt
      linarith

/-- Witness for C10: point ranges `headcount ∈ [7,7]`, `revenue ∈ [5,5]`
and a record with headcount `9` and revenue `9`. -/
theorem degenerate_range_no_division_witness :
    score_size_match outOfRangeCompany pointIcp = 0.1 ∧
    score_revenue_match outOfRangeCompany pointIcp = 0.1 :=
  degenerate_range_no_division pointIcp outOfRangeCompany
    rfl rfl (by decide) (by decide) (by decide) (by decide)

theorem countMatches_fst_le (targets cs : List String) :
    (countMatches targets cs).1 ≤ targets.length := by
  induction targets with
  | nil => exact Nat.le_refl 0
  | cons t ts ih =>
    rw [countMatches]
    rcases matchTarget t cs with _ | b
    · exact Nat.le_succ_of_le ih
    · cases b
      · exact Nat.le_succ_of_le ih
      · exact Nat.succ_le_succ ih

theorem countMatches_nil_right (targets : List String) :
    countMatches targets [] = (0, 0) := by
  induction targets with
  | nil => rfl
  | cons t ts ih =>
    rw [countMatches, ih]
    rfl

theorem industryScoreFromCounts_le_point_eight (p T : Nat) :
    industryScoreFromCounts 0 p T ≤ 0.8 := by
  unfold industryScoreFromCounts
  split
  · omega
  split
  · rw [pyMin_eq]
    exact min_le_left _ _
  · norm_num

theorem point_eight_le_industryScoreFromCounts {e : Nat} (p T : Nat) (he : 0 < e) :
    0.8 ≤ industryScoreFromCounts e p T := by
  unfold industryScoreFromCounts
  rw [if_pos he, pyMin_eq]
  refine le_min (by norm_num) ?_
  have : 0 ≤ ((e : ℚ) / (T : ℚ)) * 0.2 := by positivity
  linarith

/-- C6: the IndustryScore is monotone in the number of exact matches:
with the same number of ICP target industries on both sides, a company
record whose double loop produces strictly more exact matches never
scores lower than one producing fewer, whatever the partial-match
counts. -/
theorem industry_score_monotone (c₁ c₂ : Company) (icp₁ icp₂ : ICP)
    (hT : icp₁.industries.length = icp₂.industries.length)
    (hlt : (countMatches icp₂.industries (companyIndustries c₂)).1 <
      (countMatches icp₁.industries (companyIndustries c₁)).1) :
    score_industry_match c₂ icp₂ ≤ score_industry_match c₁ icp₁ := by
  have he₁ : 0 < (countMatches icp₁.industries (companyIndustries c₁)).1 :=
    Nat.lt_of_le_of_lt (Nat.zero_le _) hlt
  have hcs₁ : companyIndustries c₁ ≠ [] := by
    intro hnil
    rw [hnil, countMatches_nil_right] at he₁
    exact Nat.lt_irrefl 0 he₁
  have hscore₁ : score_industry_match c₁ icp₁ =
      industryScoreFromCounts (countMatches icp₁.industries (companyIndustries c₁)).1
        (countMatches icp₁.industries (companyIndustries c₁)).2
        icp₁.industries.length := by
    unfold score_industry_match
    dsimp only
    rw [if_neg hcs₁]
  rw [hscore₁]
  by_cases he₂ : 0 < (countMatches icp₂.industries (companyIndustries c₂)).1
  · have hcs₂ : companyIndustries c₂ ≠ [] := by
      intro hnil
      rw [hnil, countMatches_nil_right] at he₂
      exact Nat.lt_irrefl 0 he₂
    have hscore₂ : score_industry_match c₂ icp₂ =
        industryScoreFromCounts (countMatches icp₂.industries (companyIndustries c₂)).1
          (countMatches icp₂.industries (companyIndustries c₂)).2
          icp₂.industries.length := by
      unfold score_industry_match
      dsimp only
      rw [if_neg hcs₂]
    rw [hscore₂]
    unfold industryScoreFromCounts
    rw [if_pos he₁, if_pos he₂, pyMin_eq, pyMin_eq, ← hT]
    have hle : ((countMatches icp₂.industries (companyIndustries c₂)).1 : ℚ) ≤
        ((countMatches icp₁.industries (companyIndustries c₁)).1 : ℚ) := by
      exact_mod_cast Nat.le_of_lt hlt
    gcongr
  · have hub : score_industry_match c₂ icp₂ ≤ 0.8 := by
      unfold score_industry_match
      dsimp only
      split
      · norm_num
      · have he₂0 : (countMatches icp₂.industries (companyIndustries c₂)).1 = 0 := by
          omega
        rw [he₂0]
        exact industryScoreFromCounts_le_point_eight _ _
    exact le_trans hub (point_eight_le_industryScoreFromCounts _ _ he₁)

/-- Witness for C6: one exact match against one target beats a record
with no industry data against one target. -/
theorem industry_score_monotone_witness :
    score_industry_match Company.empty ⟨["Retail"], 0, 0, 0, 0⟩ ≤
      score_industry_match fintechCompany ⟨["Fintech"], 0, 0, 0, 0⟩ := by
  refine industry_score_monotone fintechCompany Company.empty
    ⟨["Fintech"], 0, 0, 0, 0⟩ ⟨["Retail"], 0, 0, 0, 0⟩ rfl ?_
  have hm : matchTarget "Fintech" ["Fintech"] = some true := by
    rw [matchTarget, if_pos rfl]
  have hc : countMatches ["Fintech"] ["Fintech"] = (1, 0) := by
    rw [countMatches, hm]
    rfl
  have h1 : companyIndustries fintechCompany = ["Fintech"] := rfl
  have h0 : companyIndustries Company.empty = [] := rfl
  show (countMatches ["Retail"] (companyIndustries Company.empty)).1 <
    (countMatches ["Fintech"] (companyIndustries fintechCompany)).1
  rw [h0, h1, countMatches_nil_right, hc]
  exact Nat.zero_lt_one

theorem scoreDescLe_trans (a b c : CompanyResult) :
    scoreDescLe a b → scoreDescLe b c → scoreDescLe a c := by
  simp only [scoreDescLe, decide_eq_true_eq]
  exact fun hab hbc => le_trans hbc hab

theorem scoreDescLe_total (a b : CompanyResult) :
    scoreDescLe a b || scoreDescLe b a := by
  simp only [scoreDescLe, Bool.or_eq_true, decide_eq_true_eq]
  exact le_total b.score a.score

/-- C4: the Ranker's output is sorted non-increasingly by score; any two
records with equal score keep their input order (Python's `sorted` is
stable, modelled by `mergeSort`); and the `/search-companies` endpoint
returns at most the top 20 of the ranked list while `total_found` reports
the full count. -/
theorem ranker_sorted_stable_top20 (companies : List Company) (icp : ICP) :
    (score_companies companies icp).Pairwise (fun a b => b.score ≤ a.score) ∧
    (∀ a b : CompanyResult,
      List.Sublist [a, b]
        (companies.map (fun c => convert_to_result c (calculate_icp_score c icp))) →
      a.score = b.score →
      List.Sublist [a, b] (score_companies companies icp)) ∧
    (search_companies_top companies icp).1 = (score_companies companies icp).take 20 ∧
    (search_companies_top companies icp).1.length ≤ 20 ∧
    (search_companies_top companies icp).2 = companies.length := by
  refine ⟨?_, ?_, rfl, ?_, ?_⟩
  · simp only [score_companies]
    exact (List.sorted_mergeSort scoreDescLe_trans scoreDescLe_total
      (companies.map (fun c => convert_to_result c (calculate_icp_score c icp)))).imp
      (fun h => of_decide_eq_true h)
  · intro a b hsub heq
    simp only [score_companies]
    refine List.sublist_mergeSort scoreDescLe_trans scoreDescLe_total ?_ hsub
    refine List.pairwise_pair.mpr ?_
    exact decide_eq_true (heq ▸ le_refl a.score)
  · simp only [search_companies_top]
    exact List.length_take_le 20 _
  · simp only [search_companies_top, score_companies, List.length_mergeSort,
      List.length_map]

/-- Witness for C4's stability clause: two records of identical score (the
same empty data, different names) keep their input order in the ranked
output. -/
theorem ranker_sorted_stable_top20_witness :
    List.Sublist
      [convert_to_result companyA (calculate_icp_score companyA emptyIcp),
       convert_to_result companyB (calculate_icp_score companyB emptyIcp)]
      (score_companies [companyA, companyB] emptyIcp) := by
  have heq : calculate_icp_score companyA emptyIcp =
      calculate_icp_score companyB emptyIcp := by
    norm_num +decide [calculate_icp_score, score_industry_match, score_size_match,
      score_revenue_match, score_quality_indicators, foundedYearBonus, hqBonus,
      taxonomyBonus, headcountBonus, revenueBonus, pyMin, pyMax, companyIndustries,
      countMatches, matchTarget, industryScoreFromCounts, companyA, companyB,
      emptyIcp, Company.empty, pyIn, strTruthy, pyOrStr, digitsToNat]
  refine (ranker_sorted_stable_top20 [companyA, companyB] emptyIcp).2.1 _ _ ?_ ?_
  · exact List.Sublist.refl _
  · simp only [convert_to_result, heq]

end CrustPoc
